import Mathlib

/-!
Verification of the noak class-file decode/encode core against its
natural-language specification.  Definitions are shallow embeddings of the
Rust source: `src/error.rs`, `src/reader/decoding.rs`,
`src/reader/cpool/value.rs`, `src/writer/encoding.rs` and
`src/writer/attributes/code/instructions/tableswitch.rs`.
Machine integers are modelled as `Nat`/`Int` with explicit `% 2 ^ w`
wrapping where the source relies on fixed-width arithmetic; Rust panics
(`assert!`, out-of-bounds splits) are modelled by a dedicated failure
constructor, kept distinct from recoverable `EncodeError`s.
-/

namespace Noak

/-! ## Error and context model (src/error.rs) -/

/-- Rust `Context` from src/error.rs.  The source file declares `None`, `Start`
and `ConstantPool`; the `Code` variant is used by
src/writer/attributes/code/instructions/tableswitch.rs and is
modelled from the spec: the context enumeration is "extendable with
Fields/Code/AttributeContent/etc.". -/
inductive Context where
  | None
  | Start
  | ConstantPool (index : Nat)
  | Code
  deriving DecidableEq, Repr

/-- Rust `DecodeErrorKind` from src/error.rs (`UnexpectedEoi`, `InvalidMutf8`).
`TagMismatch` and `InvalidIndex` are modelled from the spec: the constant
pool accessors (reader/cpool.rs, absent from src) fail "if any tag
mismatches or any index is out of range". -/
inductive DecodeErrorKind where
  | UnexpectedEoi
  | InvalidMutf8
  | TagMismatch
  | InvalidIndex
  deriving DecidableEq, Repr

/-- Rust `DecodeError` from src/error.rs: kind, optional absolute byte
position, context. -/
structure DecodeError where
  kind : DecodeErrorKind
  position : Option Nat
  context : Context
  deriving DecidableEq, Repr

/-- Rust `DecodeError::with_info` from src/error.rs. -/
def DecodeError.with_info (kind : DecodeErrorKind) (position : Nat) (context : Context) :
    DecodeError :=
  ⟨kind, some position, context⟩

/-- Modelled from the spec: the encode-side error kinds (`TooManyItems`,
`TooManyBytes`, `IncorrectBounds`, `ErroredBefore`, ...).  The encode half
of error.rs is absent from src; `CantChangeAnymore` and `IncorrectBounds`
additionally appear by name in src/writer sources, and `ValuesMissing` is
the dedicated wrong-phase kind for calls made before their state. -/
inductive EncodeErrorKind where
  | TooManyItems
  | TooManyBytes
  | IncorrectBounds
  | ErroredBefore
  | CantChangeAnymore
  | ValuesMissing
  deriving DecidableEq, Repr

/-- Modelled from the spec: `EncodeError::with_context(kind, context)`. -/
structure EncodeError where
  kind : EncodeErrorKind
  context : Context
  deriving DecidableEq, Repr

/-- Outcome of an encode-side operation that can also hit a Rust `panic`
(`assert!` in `ReplacingEncoder::write_bytes`, `Vec::split_off` bounds):
a panic is a programming-contract violation, kept distinct from a
recoverable `EncodeError`. -/
inductive EncodeFailure where
  | panicked
  | err (e : EncodeError)
  deriving DecidableEq, Repr

/-! ## Decoder (src/reader/decoding.rs)

The Rust `Decoder` holds a borrowed slice of the not-yet-consumed bytes,
the absolute file position of its start, and a context.  Operations take
`&mut self`; here they are state-passing: each returns the decoder after
the call together with an `Except` result, and the error branches return
the decoder unchanged exactly as the source's early `return Err(..)` paths
leave `self` untouched. -/

structure Decoder where
  buf : List Nat
  file_position : Nat
  ctx : Context
  deriving DecidableEq, Repr

/-- Rust `Decoder::new` from src/reader/decoding.rs. -/
def Decoder.new (buf : List Nat) (ctx : Context) : Decoder :=
  ⟨buf, 0, ctx⟩

/-- Rust `Decoder::bytes_remaining`. -/
def Decoder.bytes_remaining (d : Decoder) : Nat :=
  d.buf.length

/-- Rust `Decoder::limit`: a sub-decoder over a `count`-byte prefix with its
own context. -/
def Decoder.limit (d : Decoder) (count : Nat) (ctx : Context) :
    Except DecodeError Decoder :=
  if count > d.buf.length then
    .error (.with_info .UnexpectedEoi d.file_position d.ctx)
  else
    .ok ⟨d.buf.take count, d.file_position, ctx⟩

/-- Rust `Decoder::advance`. -/
def Decoder.advance (d : Decoder) (count : Nat) :
    Decoder × Except DecodeError Unit :=
  if count > d.buf.length then
    (d, .error (.with_info .UnexpectedEoi d.file_position d.ctx))
  else
    (⟨d.buf.drop count, d.file_position + count, d.ctx⟩, .ok ())

/-- Rust `Decoder::read_bytes`: the caller supplies an `n`-byte destination
buffer; on success that buffer is filled with the first `n` remaining
bytes (returned here) and the decoder advances. -/
def Decoder.read_bytes (d : Decoder) (n : Nat) :
    Decoder × Except DecodeError (List Nat) :=
  if n > d.buf.length then
    (d, .error (.with_info .UnexpectedEoi d.file_position d.ctx))
  else
    (⟨d.buf.drop n, d.file_position + n, d.ctx⟩, .ok (d.buf.take n))

/-- Rust `Decoder::split_bytes_off`. -/
def Decoder.split_bytes_off (d : Decoder) (count : Nat) :
    Decoder × Except DecodeError (List Nat) :=
  if count > d.buf.length then
    (d, .error (.with_info .UnexpectedEoi d.file_position d.ctx))
  else
    (⟨d.buf.drop count, d.file_position + count, d.ctx⟩, .ok (d.buf.take count))

/-- Rust `from_be_bytes`: big-endian interpretation of a byte list. -/
def fromBeBytes (bs : List Nat) : Nat :=
  bs.foldl (fun a b => a * 256 + b) 0

/-- The fixed-width primitive reads generated by `impl_decode!` in
src/reader/decoding.rs: fill a `width`-byte array via `read_bytes`, then
`from_be_bytes`.  `width` ranges over 1, 2, 4, 8, 16 in the source. -/
def Decoder.read_be (d : Decoder) (width : Nat) :
    Decoder × Except DecodeError Nat :=
  match d.read_bytes width with
  | (d', .ok bs) => (d', .ok (fromBeBytes bs))
  | (d', .error e) => (d', .error e)

/-! ## Encoder buffer model (src/writer/encoding.rs)

The output buffer is a `List Nat` of bytes.  `Offset` values are plain
`Nat`s.  Big-endian encodings mirror `to_be_bytes`. -/

/-- Rust `u32::to_be_bytes` (also used for `i32` after the `as u32` wrap). -/
def u32_be (n : Nat) : List Nat :=
  [n / 2 ^ 24 % 256, n / 2 ^ 16 % 256, n / 2 ^ 8 % 256, n % 256]

/-- Rust `InsertingEncoder` from src/writer/encoding.rs: a splicing cursor into
the output buffer. -/
structure InsertingEncoder where
  buf : List Nat
  cursor : Nat
  deriving DecidableEq, Repr

/-- Rust `InsertingEncoder::write_bytes`: `split_off(cursor)` detaches the
tail, the new bytes are appended, the tail is re-appended, and the cursor
advances by the number of bytes written.  `Vec::split_off` panics when the
cursor exceeds the buffer length. -/
def InsertingEncoder.write_bytes (e : InsertingEncoder) (bytes : List Nat) :
    Except EncodeFailure InsertingEncoder :=
  if e.cursor ≤ e.buf.length then
    .ok ⟨e.buf.take e.cursor ++ bytes ++ e.buf.drop e.cursor, e.cursor + bytes.length⟩
  else
    .error .panicked

/-- Rust `VecEncoder::replacing(at)` followed by `ReplacingEncoder::write_bytes`
from src/writer/encoding.rs, expressed on the whole buffer: the replacing
encoder borrows `buf[pos..]` and `write_bytes` asserts
`bytes.len() < region.len()` (the source's exact, strict comparison)
before overwriting the front of the region in place; a failed assert is a
panic ("cannot replace bytes which do not exist"). -/
def replacing_write (buf : List Nat) (pos : Nat) (bytes : List Nat) :
    Except EncodeFailure (List Nat) :=
  if bytes.length < buf.length - pos then
    .ok (buf.take pos ++ bytes ++ buf.drop (pos + bytes.length))
  else
    .error .panicked

/-- The parts of `ClassWriter` (src/writer/class.rs, absent from src) that
src/writer/encoding.rs uses, modelled from the spec and from its use
there: the growing output buffer (`encoder`) and the `pool_end` offset all
placeholder offsets are recorded relative to. -/
structure ClassWriter where
  buf : List Nat
  pool_end : Nat
  deriving DecidableEq, Repr

/-- Rust `LengthPrefixedEncoder` from src/writer/encoding.rs. -/
structure LengthPrefixedEncoder where
  class_writer : ClassWriter
  /-- The offset of the byte counter starting at the pool end. -/
  length_offset : Nat
  /-- The amount of bytes written yet (a `u32`, kept below `2 ^ 32`). -/
  length : Nat
  deriving DecidableEq, Repr

/-- Rust `LengthPrefixedEncoder::new`: record the placeholder offset relative
to the pool end and append a zero `u32` placeholder. -/
def LengthPrefixedEncoder.new (cw : ClassWriter) : LengthPrefixedEncoder :=
  { class_writer := { cw with buf := cw.buf ++ u32_be 0 }
    length_offset := cw.buf.length - cw.pool_end
    length := 0 }

/-- Rust `LengthPrefixedEncoder::finish`: patch the 4-byte placeholder in place
with the accumulated length. -/
def LengthPrefixedEncoder.finish (e : LengthPrefixedEncoder) :
    Except EncodeFailure ClassWriter :=
  match replacing_write e.class_writer.buf (e.length_offset + e.class_writer.pool_end)
      (u32_be e.length) with
  | .ok buf => .ok { e.class_writer with buf := buf }
  | .error er => .error er

/-- Rust `impl Encoder for LengthPrefixedEncoder`: `write_bytes` first performs
`self.length.checked_add(bytes.len() as u32)` (the cast truncates to
32 bits), fails with `TooManyBytes` on overflow, and only on success
appends the bytes and stores the new length.  State-passing like `&mut
self`: the error branch returns the encoder unchanged. -/
def LengthPrefixedEncoder.write_bytes (e : LengthPrefixedEncoder) (bytes : List Nat) :
    LengthPrefixedEncoder × Option EncodeError :=
  if e.length + bytes.length % 2 ^ 32 < 2 ^ 32 then
    ({ e with
        class_writer := { e.class_writer with buf := e.class_writer.buf ++ bytes }
        length := e.length + bytes.length % 2 ^ 32 }, none)
  else
    (e, some ⟨.TooManyBytes, .None⟩)

/-- Rust `CountedWriter<'a, W, u8>` from src/writer/encoding.rs: the `u8`
instantiation of the counted writer protocol.  `class_writer = none`
models the taken (`Option::take`) handle. -/
structure CountedWriterU8 where
  /-- The offset of the counter starting at the pool end. -/
  count_offset : Nat
  class_writer : Option ClassWriter
  count : Nat
  deriving DecidableEq, Repr

/-- Rust `CountedWriter::new` (with `R = u8`): record the placeholder offset
relative to the pool end and write a zero counter byte. -/
def CountedWriterU8.new (cw : ClassWriter) : CountedWriterU8 :=
  { count_offset := cw.buf.length - cw.pool_end
    class_writer := some { cw with buf := cw.buf ++ [0] }
    count := 0 }

/-- Rust `CountedWriter::write` (with `R = u8`): take the class-writer handle
(`ErroredBefore` if already taken), `Counter::check` (`TooManyItems` when
the counter sits at `u8::MAX`), run the item writer — modelled by the
bytes `item` it appends, the claim's "assuming each item writer itself
succeeds" — increment the counter, and re-patch the one-byte placeholder
in place through a replacing encoder. -/
def CountedWriterU8.write :
    CountedWriterU8 → List Nat → Except EncodeFailure CountedWriterU8
  | ⟨_, none, _⟩, _ => .error (.err ⟨.ErroredBefore, .None⟩)
  | ⟨count_offset, some cw, count⟩, item =>
    if count = 255 then
      .error (.err ⟨.TooManyItems, .None⟩)
    else
      match replacing_write (cw.buf ++ item) (count_offset + cw.pool_end)
          [count + 1] with
      | .ok buf2 => .ok ⟨count_offset, some { cw with buf := buf2 }, count + 1⟩
      | .error e => .error e

/-- Folding `CountedWriter::write` over a list of items, stopping at the
first failure. -/
def CountedWriterU8.writeAll (w : CountedWriterU8) :
    List (List Nat) → Except EncodeFailure CountedWriterU8
  | [] => .ok w
  | item :: rest =>
    match w.write item with
    | .ok w' => w'.writeAll rest
    | .error e => .error e

/-! ## Count-bounded decode sequence (src/reader/decoding.rs)

`DecodeCounted<T, Count>` pairs a decoder with a shrinking counter.  The
item type's decode is a state-passing function on the decoder (`&mut`
in the source); the value type is fixed to `Nat` as produced by the
primitive reads.  `Countdown::decrement` on `u8`/`u16` is
`checked_sub(1)`: positive counters step down and continue, a zero
counter breaks and stays zero. -/

structure DecodeCounted where
  decoder : Decoder
  remaining : Nat
  deriving DecidableEq, Repr

/-- Rust `impl Iterator for DecodeCounted — next()`: decrement the counter;
on `Continue` yield `Some(self.decoder.read())` (the read's mutation of
the cursor included), on `Break` yield `None`. -/
def DecodeCounted.next (f : Decoder → Decoder × Except DecodeError Nat)
    (s : DecodeCounted) : Option (Except DecodeError Nat) × DecodeCounted :=
  match s.remaining with
  | 0 => (none, s)
  | r + 1 =>
    let p := f s.decoder
    (some p.2, ⟨p.1, r⟩)

/-! ## Constant pool and typed-index resolution (src/reader/cpool/value.rs)

The pool container itself (reader/cpool.rs: `ConstantPool`, `Item`,
`Index`, `get`, `retrieve`) is absent from src and is modelled from the
spec: a 1-indexed ordered collection of tagged entries, index 0
reserved/invalid, the slot after an 8-byte entry unusable (`none` here),
`get(index)` returning the raw tagged entry or failing on an
out-of-range index or a mismatched tag.  Modified-UTF-8 strings are
byte lists. -/

/-- The raw tagged pool entry (`cpool::Item`), modelled from the spec:
composite entries hold indices into the same pool (e.g. a field
reference holds a class index and a name-and-type index); numeric,
method-handle and dynamic entries carry opaque auxiliary numeric fields. -/
inductive Item where
  | Utf8 (content : List Nat)
  | Integer (value : Int)
  | Long (value : Int)
  | Float (bits : Nat)
  | Double (bits : Nat)
  | Class (name : Nat)
  | String (string : Nat)
  | FieldRef (class_index : Nat) (name_and_type : Nat)
  | MethodRef (class_index : Nat) (name_and_type : Nat)
  | InterfaceMethodRef (class_index : Nat) (name_and_type : Nat)
  | NameAndType (name : Nat) (descriptor : Nat)
  | MethodHandle (kind : Nat) (reference : Nat)
  | MethodType (descriptor : Nat)
  | Dynamic (bootstrap_method_attr : Nat) (name_and_type : Nat)
  | InvokeDynamic (bootstrap_method_attr : Nat) (name_and_type : Nat)
  | Module (name : Nat)
  | Package (name : Nat)
  deriving DecidableEq, Repr

/-- The pool indices an entry still contains, one level deep. -/
def Item.indices : Item → List Nat
  | .Utf8 _ => []
  | .Integer _ => []
  | .Long _ => []
  | .Float _ => []
  | .Double _ => []
  | .Class n => [n]
  | .String s => [s]
  | .FieldRef c n => [c, n]
  | .MethodRef c n => [c, n]
  | .InterfaceMethodRef c n => [c, n]
  | .NameAndType n d => [n, d]
  | .MethodHandle _ r => [r]
  | .MethodType d => [d]
  | .Dynamic _ n => [n]
  | .InvokeDynamic _ n => [n]
  | .Module n => [n]
  | .Package n => [n]

/-- Modelled from the spec: the 1-indexed pool; position `i - 1` of the
list holds entry `i`; `none` is the unusable slot following an 8-byte
entry. -/
structure ConstantPool where
  items : List (Option Item)
  deriving DecidableEq, Repr

/-- Entry lookup: `none` for index 0, an out-of-range index, or an
unusable slot. -/
def ConstantPool.item_at (p : ConstantPool) (i : Nat) : Option Item :=
  if i = 0 then none else (p.items.getD (i - 1) none)

/-- Modelled from the spec: `get` on an untyped `Index<Item>` — the raw
tagged entry, or a range failure. -/
def ConstantPool.get_item (p : ConstantPool) (i : Nat) : Except DecodeError Item :=
  match p.item_at i with
  | none => .error ⟨.InvalidIndex, none, .None⟩
  | some it => .ok it

/-- Modelled from the spec: `get` on `Index<Utf8>` — tag-checked raw
access. -/
def ConstantPool.get_utf8 (p : ConstantPool) (i : Nat) :
    Except DecodeError (List Nat) :=
  match p.item_at i with
  | none => .error ⟨.InvalidIndex, none, .None⟩
  | some (.Utf8 s) => .ok s
  | some _ => .error ⟨.TagMismatch, none, .None⟩

/-- Modelled from the spec: `get` on `Index<Class>`. -/
def ConstantPool.get_class (p : ConstantPool) (i : Nat) :
    Except DecodeError Nat :=
  match p.item_at i with
  | none => .error ⟨.InvalidIndex, none, .None⟩
  | some (.Class n) => .ok n
  | some _ => .error ⟨.TagMismatch, none, .None⟩

/-- Modelled from the spec: `get` on `Index<NameAndType>`. -/
def ConstantPool.get_name_and_type (p : ConstantPool) (i : Nat) :
    Except DecodeError (Nat × Nat) :=
  match p.item_at i with
  | none => .error ⟨.InvalidIndex, none, .None⟩
  | some (.NameAndType n d) => .ok (n, d)
  | some _ => .error ⟨.TagMismatch, none, .None⟩

/-- Modelled from the spec: `get` on `Index<FieldRef>`. -/
def ConstantPool.get_field_ref (p : ConstantPool) (i : Nat) :
    Except DecodeError (Nat × Nat) :=
  match p.item_at i with
  | none => .error ⟨.InvalidIndex, none, .None⟩
  | some (.FieldRef c n) => .ok (c, n)
  | some _ => .error ⟨.TagMismatch, none, .None⟩

/-- Modelled from the spec: `get` on `Index<MethodHandle>`. -/
def ConstantPool.get_method_handle (p : ConstantPool) (i : Nat) :
    Except DecodeError (Nat × Nat) :=
  match p.item_at i with
  | none => .error ⟨.InvalidIndex, none, .None⟩
  | some (.MethodHandle k r) => .ok (k, r)
  | some _ => .error ⟨.TagMismatch, none, .None⟩

/-- Resolved `Class` value (src/reader/cpool/value.rs). -/
structure ClassV where
  name : List Nat
  deriving DecidableEq, Repr

/-- Resolved `NameAndType` value (src/reader/cpool/value.rs). -/
structure NameAndTypeV where
  name : List Nat
  descriptor : List Nat
  deriving DecidableEq, Repr

/-- Resolved `FieldRef` value (src/reader/cpool/value.rs). -/
structure FieldRefV where
  cls : ClassV
  name_and_type : NameAndTypeV
  deriving DecidableEq, Repr

/-- Resolved `MethodHandle` value (src/reader/cpool/value.rs): its
`reference` field has type `cpool::Item` — the raw tagged entry. -/
structure MethodHandleV where
  kind : Nat
  reference : Item
  deriving DecidableEq, Repr

/-- Rust `ToValue for Index<Utf8> — retrieve_from`: the validated string. -/
def retrieve_utf8 (p : ConstantPool) (i : Nat) : Except DecodeError (List Nat) :=
  p.get_utf8 i

/-- Rust `ToValue for Index<Class> — retrieve_from` from
src/reader/cpool/value.rs: `pool.get(self)?` then
`pool.retrieve(this.name)?`. -/
def retrieve_class (p : ConstantPool) (i : Nat) : Except DecodeError ClassV :=
  match p.get_class i with
  | .error e => .error e
  | .ok name =>
    match retrieve_utf8 p name with
    | .error e => .error e
    | .ok s => .ok ⟨s⟩

/-- Rust `ToValue for Index<NameAndType> — retrieve_from`. -/
def retrieve_name_and_type (p : ConstantPool) (i : Nat) :
    Except DecodeError NameAndTypeV :=
  match p.get_name_and_type i with
  | .error e => .error e
  | .ok nd =>
    match retrieve_utf8 p nd.1 with
    | .error e => .error e
    | .ok n =>
      match retrieve_utf8 p nd.2 with
      | .error e => .error e
      | .ok d => .ok ⟨n, d⟩

/-- Rust `ToValue for Index<FieldRef> — retrieve_from`: tag-checked raw access,
then recursive resolution of the class and name-and-type indices. -/
def retrieve_field_ref (p : ConstantPool) (i : Nat) :
    Except DecodeError FieldRefV :=
  match p.get_field_ref i with
  | .error e => .error e
  | .ok cn =>
    match retrieve_class p cn.1 with
    | .error e => .error e
    | .ok c =>
      match retrieve_name_and_type p cn.2 with
      | .error e => .error e
      | .ok nt => .ok ⟨c, nt⟩

/-- Rust `ToValue for Index<MethodHandle> — retrieve_from`: the kind is copied
and the reference is `pool.get(this.reference)?.clone()` — a one-level
dereference to the raw tagged entry, not a recursive resolution. -/
def retrieve_method_handle (p : ConstantPool) (i : Nat) :
    Except DecodeError MethodHandleV :=
  match p.get_method_handle i with
  | .error e => .error e
  | .ok kr =>
    match p.get_item kr.2 with
    | .error e => .error e
    | .ok it => .ok ⟨kr.1, it⟩

/-- Modelled from the spec: `get` on `Index<String>`. -/
def ConstantPool.get_string (p : ConstantPool) (i : Nat) :
    Except DecodeError Nat :=
  match p.item_at i with
  | none => .error ⟨.InvalidIndex, none, .None⟩
  | some (.String s) => .ok s
  | some _ => .error ⟨.TagMismatch, none, .None⟩

/-- Modelled from the spec: `get` on `Index<MethodRef>`. -/
def ConstantPool.get_method_ref (p : ConstantPool) (i : Nat) :
    Except DecodeError (Nat × Nat) :=
  match p.item_at i with
  | none => .error ⟨.InvalidIndex, none, .None⟩
  | some (.MethodRef c n) => .ok (c, n)
  | some _ => .error ⟨.TagMismatch, none, .None⟩

/-- Modelled from the spec: `get` on `Index<InterfaceMethodRef>`. -/
def ConstantPool.get_interface_method_ref (p : ConstantPool) (i : Nat) :
    Except DecodeError (Nat × Nat) :=
  match p.item_at i with
  | none => .error ⟨.InvalidIndex, none, .None⟩
  | some (.InterfaceMethodRef c n) => .ok (c, n)
  | some _ => .error ⟨.TagMismatch, none, .None⟩

/-- Modelled from the spec: `get` on `Index<MethodType>`. -/
def ConstantPool.get_method_type (p : ConstantPool) (i : Nat) :
    Except DecodeError Nat :=
  match p.item_at i with
  | none => .error ⟨.InvalidIndex, none, .None⟩
  | some (.MethodType d) => .ok d
  | some _ => .error ⟨.TagMismatch, none, .None⟩

/-- Modelled from the spec: `get` on `Index<Dynamic>`. -/
def ConstantPool.get_dynamic (p : ConstantPool) (i : Nat) :
    Except DecodeError (Nat × Nat) :=
  match p.item_at i with
  | none => .error ⟨.InvalidIndex, none, .None⟩
  | some (.Dynamic b n) => .ok (b, n)
  | some _ => .error ⟨.TagMismatch, none, .None⟩

/-- Modelled from the spec: `get` on `Index<InvokeDynamic>`. -/
def ConstantPool.get_invoke_dynamic (p : ConstantPool) (i : Nat) :
    Except DecodeError (Nat × Nat) :=
  match p.item_at i with
  | none => .error ⟨.InvalidIndex, none, .None⟩
  | some (.InvokeDynamic b n) => .ok (b, n)
  | some _ => .error ⟨.TagMismatch, none, .None⟩

/-- Modelled from the spec: `get` on `Index<Module>`. -/
def ConstantPool.get_module (p : ConstantPool) (i : Nat) :
    Except DecodeError Nat :=
  match p.item_at i with
  | none => .error ⟨.InvalidIndex, none, .None⟩
  | some (.Module n) => .ok n
  | some _ => .error ⟨.TagMismatch, none, .None⟩

/-- Modelled from the spec: `get` on `Index<Package>`. -/
def ConstantPool.get_package (p : ConstantPool) (i : Nat) :
    Except DecodeError Nat :=
  match p.item_at i with
  | none => .error ⟨.InvalidIndex, none, .None⟩
  | some (.Package n) => .ok n
  | some _ => .error ⟨.TagMismatch, none, .None⟩

/-- Resolved `String` value (src/reader/cpool/value.rs). -/
structure StringV where
  string : List Nat
  deriving DecidableEq, Repr

/-- Resolved `MethodRef` value (src/reader/cpool/value.rs). -/
structure MethodRefV where
  cls : ClassV
  name_and_type : NameAndTypeV
  deriving DecidableEq, Repr

/-- Resolved `InterfaceMethodRef` value (src/reader/cpool/value.rs). -/
structure InterfaceMethodRefV where
  cls : ClassV
  name_and_type : NameAndTypeV
  deriving DecidableEq, Repr

/-- Resolved `MethodType` value (src/reader/cpool/value.rs). -/
structure MethodTypeV where
  descriptor : List Nat
  deriving DecidableEq, Repr

/-- Resolved `Dynamic` value (src/reader/cpool/value.rs): the
bootstrap-method table index is copied through uninterpreted. -/
structure DynamicV where
  bootstrap_method_attr : Nat
  name_and_type : NameAndTypeV
  deriving DecidableEq, Repr

/-- Resolved `InvokeDynamic` value (src/reader/cpool/value.rs). -/
structure InvokeDynamicV where
  bootstrap_method_attr : Nat
  name_and_type : NameAndTypeV
  deriving DecidableEq, Repr

/-- Resolved `Module` value (src/reader/cpool/value.rs). -/
structure ModuleV where
  name : List Nat
  deriving DecidableEq, Repr

/-- Resolved `Package` value (src/reader/cpool/value.rs). -/
structure PackageV where
  name : List Nat
  deriving DecidableEq, Repr

/-- Rust `ToValue for Index<String> — retrieve_from`. -/
def retrieve_string (p : ConstantPool) (i : Nat) : Except DecodeError StringV :=
  match p.get_string i with
  | .error e => .error e
  | .ok s =>
    match retrieve_utf8 p s with
    | .error e => .error e
    | .ok str => .ok ⟨str⟩

/-- Rust `ToValue for Index<MethodRef> — retrieve_from`: same recursive
shape as the field reference. -/
def retrieve_method_ref (p : ConstantPool) (i : Nat) :
    Except DecodeError MethodRefV :=
  match p.get_method_ref i with
  | .error e => .error e
  | .ok cn =>
    match retrieve_class p cn.1 with
    | .error e => .error e
    | .ok c =>
      match retrieve_name_and_type p cn.2 with
      | .error e => .error e
      | .ok nt => .ok ⟨c, nt⟩

/-- Rust `ToValue for Index<InterfaceMethodRef> — retrieve_from`. -/
def retrieve_interface_method_ref (p : ConstantPool) (i : Nat) :
    Except DecodeError InterfaceMethodRefV :=
  match p.get_interface_method_ref i with
  | .error e => .error e
  | .ok cn =>
    match retrieve_class p cn.1 with
    | .error e => .error e
    | .ok c =>
      match retrieve_name_and_type p cn.2 with
      | .error e => .error e
      | .ok nt => .ok ⟨c, nt⟩

/-- Rust `ToValue for Index<MethodType> — retrieve_from`. -/
def retrieve_method_type (p : ConstantPool) (i : Nat) :
    Except DecodeError MethodTypeV :=
  match p.get_method_type i with
  | .error e => .error e
  | .ok d =>
    match retrieve_utf8 p d with
    | .error e => .error e
    | .ok s => .ok ⟨s⟩

/-- Rust `ToValue for Index<Dynamic> — retrieve_from`: the numeric
bootstrap-method index is copied, the name-and-type resolved. -/
def retrieve_dynamic (p : ConstantPool) (i : Nat) :
    Except DecodeError DynamicV :=
  match p.get_dynamic i with
  | .error e => .error e
  | .ok bn =>
    match retrieve_name_and_type p bn.2 with
    | .error e => .error e
    | .ok nt => .ok ⟨bn.1, nt⟩

/-- Rust `ToValue for Index<InvokeDynamic> — retrieve_from`. -/
def retrieve_invoke_dynamic (p : ConstantPool) (i : Nat) :
    Except DecodeError InvokeDynamicV :=
  match p.get_invoke_dynamic i with
  | .error e => .error e
  | .ok bn =>
    match retrieve_name_and_type p bn.2 with
    | .error e => .error e
    | .ok nt => .ok ⟨bn.1, nt⟩

/-- Rust `ToValue for Index<Module> — retrieve_from`. -/
def retrieve_module (p : ConstantPool) (i : Nat) : Except DecodeError ModuleV :=
  match p.get_module i with
  | .error e => .error e
  | .ok n =>
    match retrieve_utf8 p n with
    | .error e => .error e
    | .ok s => .ok ⟨s⟩

/-- Rust `ToValue for Index<Package> — retrieve_from`. -/
def retrieve_package (p : ConstantPool) (i : Nat) : Except DecodeError PackageV :=
  match p.get_package i with
  | .error e => .error e
  | .ok n =>
    match retrieve_utf8 p n with
    | .error e => .error e
    | .ok s => .ok ⟨s⟩

/-! ## Table-switch instruction writer
(src/writer/attributes/code/instructions/tableswitch.rs)

`i32`/`u32` values follow the source's wrapping arithmetic: `as u32` is
reduction mod `2 ^ 32`, `as i32` reads a `u32` back as two's complement,
and `high - low + 1` is computed exactly in `Int` and then wrapped by the
`as u32` cast — the composition of `i32` wrapping arithmetic with the
cast. -/

/-- Rust `as u32` on an `i32` value (two's-complement wrap). -/
def toU32 (x : Int) : Nat := (x % (2 ^ 32 : Int)).toNat

/-- Rust `as i32` on a `u32` value (two's-complement read-back). -/
def toI32 (n : Nat) : Int := if n < 2 ^ 31 then (n : Int) else (n : Int) - 2 ^ 32

/-- Rust `i32` big-endian bytes, via the `as u32` wrap. -/
def i32_be (x : Int) : List Nat := u32_be (toU32 x)

/-- Rust `WriteState` from tableswitch.rs, with its derived order. -/
inductive WriteState where
  | Default
  | Low
  | High
  | Jumps
  | Finished
  deriving DecidableEq, Repr

/-- The derived `Ord` rank of `WriteState`. -/
def WriteState.rank : WriteState → Nat
  | .Default => 0
  | .Low => 1
  | .High => 2
  | .Jumps => 3
  | .Finished => 4

/-- Modelled from the spec: `EncodeError::result_from_state` (the encode
half of error.rs is absent from src).  A state check rejecting calls made
out of phase: the expected state passes; a writer already past the
expected state "cannot change anymore" (the extra `write_jump` call in
state `Finished` fails with `CantChangeAnymore`); a writer not yet at the
expected state fails with the dedicated wrong-phase kind for missing
earlier values. -/
def result_from_state (cur expected : WriteState) (ctx : Context) :
    Option EncodeError :=
  if cur.rank = expected.rank then none
  else if cur.rank < expected.rank then some ⟨.ValuesMissing, ctx⟩
  else some ⟨.CantChangeAnymore, ctx⟩

/-- Rust `TableSwitchWriter`: the bytes it has emitted into the enclosing code
encoder, the write state, and the `remaining` jump counter (a `u32`). -/
structure TableSwitchWriter where
  buf : List Nat
  state : WriteState
  remaining : Nat
  deriving DecidableEq, Repr

/-- Rust `TableSwitchWriter::new`: emit the `0xaa` opcode, then
`3 - (offset & 3)` zero padding bytes; state `Default`, `remaining = 0`.
`offset` is the opcode's byte offset from the start of the instruction
stream (`offset.get()` — the code-level `Offset` type is absent from src;
the pad count is the source's exact expression, `&` being `% 4`). -/
def TableSwitchWriter.new (offset : Nat) : TableSwitchWriter :=
  { buf := 0xaa :: List.replicate (3 - offset % 4) 0
    state := .Default
    remaining := 0 }

/-- Rust `TableSwitchWriter::write_default`: state check against `Default`,
emit the label, advance to `Low`.  Labels are emitted as 4-byte values
(modelled from the spec: "emits the default-branch label").  Each
operation is state-passing; on failure the writer is returned as the
source's early `return Err(..)` leaves it. -/
def TableSwitchWriter.write_default (w : TableSwitchWriter) (label : Nat) :
    TableSwitchWriter × Option EncodeError :=
  match result_from_state w.state .Default .Code with
  | some e => (w, some e)
  | none => ({ w with buf := w.buf ++ u32_be label, state := .Low }, none)

/-- Rust `TableSwitchWriter::write_low`: state check against `Low`, emit the
low bound, stash it in `remaining` (`low as u32`), advance to `High`. -/
def TableSwitchWriter.write_low (w : TableSwitchWriter) (low : Int) :
    TableSwitchWriter × Option EncodeError :=
  match result_from_state w.state .Low .Code with
  | some e => (w, some e)
  | none =>
    ({ w with buf := w.buf ++ i32_be low, remaining := toU32 low, state := .High },
      none)

/-- Rust `TableSwitchWriter::write_high`: state check against `High`, emit the
high bound first, then fail with `IncorrectBounds` if `low > high`
(recovering `low` as `remaining as i32`), else set
`remaining = (high - low + 1) as u32` and advance to `Jumps`. -/
def TableSwitchWriter.write_high (w : TableSwitchWriter) (high : Int) :
    TableSwitchWriter × Option EncodeError :=
  match result_from_state w.state .High .Code with
  | some e => (w, some e)
  | none =>
    let w1 : TableSwitchWriter := { w with buf := w.buf ++ i32_be high }
    let low := toI32 w.remaining
    if low > high then (w1, some ⟨.IncorrectBounds, .Code⟩)
    else ({ w1 with remaining := toU32 (high - low + 1), state := .Jumps }, none)

/-- Rust `TableSwitchWriter::write_jump`: state check against `Jumps`, emit the
jump label, then: `remaining == 1` advances to `Finished`;
`remaining == 0` returns `CantChangeAnymore` early (label already
emitted, counter and state untouched); otherwise the counter is
decremented. -/
def TableSwitchWriter.write_jump (w : TableSwitchWriter) (label : Nat) :
    TableSwitchWriter × Option EncodeError :=
  match result_from_state w.state .Jumps .Code with
  | some e => (w, some e)
  | none =>
    let w1 : TableSwitchWriter := { w with buf := w.buf ++ u32_be label }
    if w.remaining = 1 then
      ({ w1 with state := .Finished, remaining := 0 }, none)
    else if w.remaining = 0 then
      (w1, some ⟨.CantChangeAnymore, .Code⟩)
    else
      ({ w1 with remaining := w.remaining - 1 }, none)

/-- Rust `TableSwitchWriter::finish`: fails unless the state is `Finished`. -/
def TableSwitchWriter.finish (w : TableSwitchWriter) : Option EncodeError :=
  result_from_state w.state .Finished .Code

/-- The writer after `new(offset)`, `write_default(dl)`, `write_low(low)`,
`write_high(high)`, together with the `write_high` outcome. -/
def tswAfterHigh (offset dl : Nat) (low high : Int) :
    TableSwitchWriter × Option EncodeError :=
  ((((TableSwitchWriter.new offset).write_default dl).1.write_low low).1.write_high
    high)

/-- Runs `n` consecutive `write_jump` calls (all with label 0), stopping at the
first failure. -/
def TableSwitchWriter.writeJumps :
    TableSwitchWriter → Nat → TableSwitchWriter × Option EncodeError
  | w, 0 => (w, none)
  | w, n + 1 =>
    match w.write_jump 0 with
    | (w', none) => w'.writeJumps n
    | (w', some e) => (w', some e)

/-! ## Theorems -/

/-- C1: for every decoder and every requested byte count `n` strictly
greater than the decoder's remaining bytes, `advance(n)`, `read_bytes`
with an `n`-byte destination, `split_bytes_off(n)`, and the fixed-width
primitive reads built on them all fail with an `UnexpectedEoi` error
carrying the decoder's current absolute file position and current
context, and leave the decoder completely unchanged (same remaining-bytes
view, same file position, same context). -/
theorem C1_eoi_fails_unchanged (d : Decoder) (n : Nat)
    (h : d.buf.length < n) :
    d.advance n = (d, .error ⟨.UnexpectedEoi, some d.file_position, d.ctx⟩) ∧
    d.read_bytes n = (d, .error ⟨.UnexpectedEoi, some d.file_position, d.ctx⟩) ∧
    d.split_bytes_off n =
      (d, .error ⟨.UnexpectedEoi, some d.file_position, d.ctx⟩) ∧
    d.read_be n = (d, .error ⟨.UnexpectedEoi, some d.file_position, d.ctx⟩) := by
  have h' : n > d.buf.length := h
  refine ⟨?_, ?_, ?_, ?_⟩ <;>
    simp [Decoder.advance, Decoder.read_bytes, Decoder.split_bytes_off,
      Decoder.read_be, DecodeError.with_info, h']

/-- C1 witness: the failing reads evaluated on the one-byte decoder
`Decoder.new [7] Start` with requested count 2. -/
theorem C1_eoi_fails_unchanged_witness :
    (Decoder.new [7] Context.Start).buf.length < 2 ∧
    ((Decoder.new [7] Context.Start).advance 2 =
        (Decoder.new [7] Context.Start, .error ⟨.UnexpectedEoi, some 0, .Start⟩) ∧
      (Decoder.new [7] Context.Start).read_bytes 2 =
        (Decoder.new [7] Context.Start, .error ⟨.UnexpectedEoi, some 0, .Start⟩) ∧
      (Decoder.new [7] Context.Start).split_bytes_off 2 =
        (Decoder.new [7] Context.Start, .error ⟨.UnexpectedEoi, some 0, .Start⟩) ∧
      (Decoder.new [7] Context.Start).read_be 2 =
        (Decoder.new [7] Context.Start, .error ⟨.UnexpectedEoi, some 0, .Start⟩)) :=
  ⟨by decide, C1_eoi_fails_unchanged (Decoder.new [7] Context.Start) 2 (by decide)⟩

/-- C5 counterexample: `limit` creates a sub-decoder for which
`file_position + length(view)` is not the original buffer length — on the
fresh two-byte decoder, `limit 1` yields a sub-decoder with
`file_position + length(view) = 1 ≠ 2`. -/
theorem C5_limit_counterexample :
    (Decoder.new [0, 0] Context.None).limit 1 Context.Start =
      Except.ok (Decoder.mk [0] 0 Context.Start) ∧
    ¬ ((Decoder.mk [0] 0 Context.Start).file_position +
        (Decoder.mk [0] 0 Context.Start).buf.length =
      ([0, 0] : List Nat).length) := by
  exact ⟨rfl, by decide⟩

/-- C5 (amended): `file_position + length(view)` equals the buffer length
for a freshly created decoder and the quantity is preserved by `advance`,
`read_bytes` and `split_bytes_off` (also on their failure branches); a
sub-decoder created by `limit(count)` instead starts with
`file_position + length(view)` equal to the parent's
`file_position + count` — the end offset of the limited region, not the
original buffer length — and maintains that value from then on. -/
theorem C5_position_invariant :
    (∀ (buf : List Nat) (ctx : Context), (Decoder.new buf ctx).file_position +
      (Decoder.new buf ctx).buf.length = buf.length) ∧
    (∀ (d : Decoder) (n : Nat),
      (d.advance n).1.file_position + (d.advance n).1.buf.length =
      d.file_position + d.buf.length) ∧
    (∀ (d : Decoder) (n : Nat),
      (d.read_bytes n).1.file_position + (d.read_bytes n).1.buf.length =
      d.file_position + d.buf.length) ∧
    (∀ (d : Decoder) (n : Nat), (d.split_bytes_off n).1.file_position +
      (d.split_bytes_off n).1.buf.length = d.file_position + d.buf.length) ∧
    (∀ (d : Decoder) (n : Nat) (ctx : Context) (d' : Decoder),
      d.limit n ctx = .ok d' →
      d'.file_position + d'.buf.length = d.file_position + n) := by
  refine ⟨fun buf ctx => by simp [Decoder.new], ?_, ?_, ?_, ?_⟩
  · intro d n
    unfold Decoder.advance
    split
    · rfl
    · simp only [List.length_drop]
      omega
  · intro d n
    unfold Decoder.read_bytes
    split
    · rfl
    · simp only [List.length_drop]
      omega
  · intro d n
    unfold Decoder.split_bytes_off
    split
    · rfl
    · simp only [List.length_drop]
      omega
  · intro d n ctx d' h
    unfold Decoder.limit at h
    split at h
    · exact absurd h (by simp)
    · cases h
      simp only [List.length_take]
      omega

/-- C5 witness: the invariant conjuncts evaluated on the decoder over
`[5, 6]`, with the `limit` conjunct at count 1. -/
theorem C5_position_invariant_witness :
    ((Decoder.new [5, 6] Context.None).limit 1 Context.Start =
      Except.ok (Decoder.mk [5] 0 Context.Start)) ∧
    (Decoder.mk [5] 0 Context.Start).file_position +
      (Decoder.mk [5] 0 Context.Start).buf.length =
      (Decoder.new [5, 6] Context.None).file_position + 1 :=
  ⟨rfl, C5_position_invariant.2.2.2.2 (Decoder.new [5, 6] Context.None) 1
    Context.Start (Decoder.mk [5] 0 Context.Start) rfl⟩

/-- C2: writing bytes `b` through the inserting (splicing) encoder
positioned at `p ≤ len(S)` over buffer `S` produces exactly
`S[..p] ++ b ++ S[p..]` — everything after the insertion point preserved
and shifted forward — and advances the cursor by `len(b)`, so an
immediately following insertion of `c` lands right after `b`. -/
theorem C2_inserting_splices (S : List Nat) (p : Nat) (b c : List Nat)
    (h : p ≤ S.length) :
    InsertingEncoder.write_bytes ⟨S, p⟩ b =
      .ok ⟨S.take p ++ b ++ S.drop p, p + b.length⟩ ∧
    InsertingEncoder.write_bytes ⟨S.take p ++ b ++ S.drop p, p + b.length⟩ c =
      .ok ⟨S.take p ++ (b ++ c) ++ S.drop p, p + b.length + c.length⟩ := by
  have hA : (S.take p).length = p := by
    simp [List.length_take]
    omega
  constructor
  · simp [InsertingEncoder.write_bytes, h]
  · have hle : p + b.length ≤ (S.take p ++ b ++ S.drop p).length := by
      simp only [List.length_append, hA, List.length_drop]
      omega
    have hlen : ((S.take p ++ b).length) = p + b.length := by
      simp [List.length_append, hA]
    have htake : (S.take p ++ b ++ S.drop p).take (p + b.length) = S.take p ++ b := by
      rw [← hlen, List.take_left]
    have hdrop : (S.take p ++ b ++ S.drop p).drop (p + b.length) = S.drop p := by
      rw [← hlen, List.drop_left]
    show (if p + b.length ≤ (S.take p ++ b ++ S.drop p).length then
        Except.ok (InsertingEncoder.mk
          ((S.take p ++ b ++ S.drop p).take (p + b.length) ++ c ++
            (S.take p ++ b ++ S.drop p).drop (p + b.length))
          (p + b.length + c.length))
      else Except.error EncodeFailure.panicked) =
      Except.ok ⟨S.take p ++ (b ++ c) ++ S.drop p, p + b.length + c.length⟩
    rw [if_pos hle, htake, hdrop]
    simp [List.append_assoc]

/-- C2 witness: inserting `[8]` and then `[9]` at position 1 of
`[1, 2, 3]`. -/
theorem C2_inserting_splices_witness :
    InsertingEncoder.write_bytes ⟨[1, 2, 3], 1⟩ [8] =
      .ok ⟨[1] ++ [8] ++ [2, 3], 2⟩ ∧
    InsertingEncoder.write_bytes ⟨[1] ++ [8] ++ [2, 3], 2⟩ [9] =
      .ok ⟨[1] ++ ([8] ++ [9]) ++ [2, 3], 3⟩ :=
  C2_inserting_splices [1, 2, 3] 1 [8] [9] (by decide)

/-- C3 counterexample: a `CountedWriter` with a `u8` counter over a fresh
class writer, whose first item writer succeeds while appending zero
bytes — the claim says this first `write` call succeeds and re-patches
the placeholder to 1, but the in-place patch trips
`ReplacingEncoder::write_bytes`'s strict assert
(`bytes.len() < buf.len()` is `1 < 1`) and panics.  With an item that
appends one byte the same call succeeds and the placeholder is patched
to 1, as the claim describes. -/
theorem C3_zero_byte_item_panics :
    (CountedWriterU8.new ⟨[], 0⟩).write [] = .error .panicked ∧
    (CountedWriterU8.new ⟨[], 0⟩).write [9] =
      .ok ⟨0, some ⟨[1, 9], 0⟩, 1⟩ := by
  exact ⟨rfl, rfl⟩

/-- C7: evaluation at the failing input.  Patching a 4-byte length
placeholder that sits at the very end of the buffer with a 4-byte value —
the spec's valid exact-width use — panics: `LengthPrefixedEncoder::new`
immediately followed by `finish()` (an empty body) hits the strict assert
in `ReplacingEncoder::write_bytes`, and so does any replacing write whose
byte count equals the remaining region exactly, even though all the
replaced bytes exist (region length = bytes length). -/
theorem C7_exact_fit_patch_panics :
    (LengthPrefixedEncoder.new ⟨[], 0⟩).finish = .error .panicked ∧
    replacing_write [9, 0, 0, 0, 0] 1 [1, 2, 3, 4] = .error .panicked ∧
    ([9, 0, 0, 0, 0] : List Nat).length - 1 = ([1, 2, 3, 4] : List Nat).length := by
  exact ⟨rfl, rfl, rfl⟩

/-- C8 counterexample: a length-prefixed encoder whose accumulated length
sits at `u32::MAX` rejects a one-byte write with `TooManyBytes`, but is
not poisoned afterwards: the claim says every further use fails with
`ErroredBefore`, yet an immediately following in-range write succeeds
(returns no error) — the source has no `ErroredBefore` guard in
`LengthPrefixedEncoder`. -/
theorem C8_not_poisoned_counterexample :
    (LengthPrefixedEncoder.mk ⟨[], 0⟩ 0 (2 ^ 32 - 1)).write_bytes [7] =
      (⟨⟨[], 0⟩, 0, 2 ^ 32 - 1⟩, some ⟨.TooManyBytes, .None⟩) ∧
    (LengthPrefixedEncoder.mk ⟨[], 0⟩ 0 (2 ^ 32 - 1)).write_bytes [] =
      (⟨⟨[], 0⟩, 0, 2 ^ 32 - 1⟩, none) := by
  constructor
  · rfl
  · rfl

/-- A fresh length-prefixed encoder accepts any in-range write and
accumulates exactly its byte count. -/
theorem lpe_fresh_write (cw : ClassWriter) (bs : List Nat)
    (h : bs.length < 2 ^ 32) :
    ((LengthPrefixedEncoder.new cw).write_bytes bs).1.length = bs.length ∧
    ((LengthPrefixedEncoder.new cw).write_bytes bs).2 = none := by
  have h2 : (LengthPrefixedEncoder.new cw).length + bs.length % 2 ^ 32 <
      2 ^ 32 := by
    show (0 : Nat) + bs.length % 2 ^ 32 < 2 ^ 32
    rw [Nat.mod_eq_of_lt h]
    omega
  unfold LengthPrefixedEncoder.write_bytes
  rw [if_pos h2]
  constructor
  · show (LengthPrefixedEncoder.new cw).length + bs.length % 2 ^ 32 = bs.length
    show (0 : Nat) + bs.length % 2 ^ 32 = bs.length
    rw [Nat.mod_eq_of_lt h]
    omega
  · rfl

/-- The overflow state of the counterexample is reachable through the
encoder's own interface: a fresh length-prefixed encoder that has written
`2 ^ 32 - 1` bytes holds exactly that accumulated length. -/
theorem lpe_max_length_reachable :
    ((LengthPrefixedEncoder.new ⟨[], 0⟩).write_bytes
      (List.replicate (2 ^ 32 - 1) 0)).1.length = 2 ^ 32 - 1 ∧
    ((LengthPrefixedEncoder.new ⟨[], 0⟩).write_bytes
      (List.replicate (2 ^ 32 - 1) 0)).2 = none := by
  have h := lpe_fresh_write ⟨[], 0⟩ (List.replicate (2 ^ 32 - 1) 0)
    (by rw [List.length_replicate]; omega)
  rwa [List.length_replicate] at h

/-- C8 (amended): a `write_bytes` whose byte count pushes the accumulated
`u32` total past its range fails with `TooManyBytes` and leaves the
encoder unchanged (bytes not appended); an in-range write appends the
bytes and accumulates the length — the encoder is not poisoned, and
`ErroredBefore` is never produced by this encoder. -/
theorem C8_overflow_toomanybytes (e : LengthPrefixedEncoder) (bytes : List Nat) :
    (2 ^ 32 ≤ e.length + bytes.length % 2 ^ 32 →
      e.write_bytes bytes = (e, some ⟨.TooManyBytes, .None⟩)) ∧
    (e.length + bytes.length % 2 ^ 32 < 2 ^ 32 →
      e.write_bytes bytes =
        ({ e with
            class_writer := { e.class_writer with
              buf := e.class_writer.buf ++ bytes }
            length := e.length + bytes.length % 2 ^ 32 }, none)) := by
  constructor
  · intro h
    unfold LengthPrefixedEncoder.write_bytes
    rw [if_neg (by omega)]
  · intro h
    unfold LengthPrefixedEncoder.write_bytes
    rw [if_pos h]

/-- C8 witness: the overflow branch at accumulated length `u32::MAX` with
one more byte, and the in-range branch on a fresh encoder writing one
byte. -/
theorem C8_overflow_toomanybytes_witness :
    (2 ^ 32 ≤ (LengthPrefixedEncoder.mk ⟨[], 0⟩ 0 (2 ^ 32 - 1)).length +
      ([7] : List Nat).length % 2 ^ 32) ∧
    (LengthPrefixedEncoder.mk ⟨[], 0⟩ 0 (2 ^ 32 - 1)).write_bytes [7] =
      (⟨⟨[], 0⟩, 0, 2 ^ 32 - 1⟩, some ⟨.TooManyBytes, .None⟩) :=
  ⟨by show (2 : Nat) ^ 32 ≤ 2 ^ 32 - 1 + 1 % 2 ^ 32; norm_num,
    (C8_overflow_toomanybytes (LengthPrefixedEncoder.mk ⟨[], 0⟩ 0 (2 ^ 32 - 1))
      [7]).1 (by show (2 : Nat) ^ 32 ≤ 2 ^ 32 - 1 + 1 % 2 ^ 32; norm_num)⟩

/-- Inversion: a successful `get_utf8` means the slot holds a `Utf8`
entry. -/
theorem get_utf8_ok {p : ConstantPool} {i : Nat} {s : List Nat}
    (h : p.get_utf8 i = .ok s) : p.item_at i = some (.Utf8 s) := by
  unfold ConstantPool.get_utf8 at h
  split at h <;> simp_all

/-- Inversion: a successful `get_class` means the slot holds a `Class`
entry. -/
theorem get_class_ok {p : ConstantPool} {i u : Nat}
    (h : p.get_class i = .ok u) : p.item_at i = some (.Class u) := by
  unfold ConstantPool.get_class at h
  split at h <;> simp_all

/-- Inversion: a successful `get_name_and_type` means the slot holds a
`NameAndType` entry. -/
theorem get_name_and_type_ok {p : ConstantPool} {i n d : Nat}
    (h : p.get_name_and_type i = .ok (n, d)) :
    p.item_at i = some (.NameAndType n d) := by
  unfold ConstantPool.get_name_and_type at h
  split at h <;> simp_all

/-- Inversion: a successful `get_field_ref` means the slot holds a
`FieldRef` entry. -/
theorem get_field_ref_ok {p : ConstantPool} {i c n : Nat}
    (h : p.get_field_ref i = .ok (c, n)) :
    p.item_at i = some (.FieldRef c n) := by
  unfold ConstantPool.get_field_ref at h
  split at h <;> simp_all

/-- Inversion: a successful `get_method_handle` means the slot holds a
`MethodHandle` entry. -/
theorem get_method_handle_ok {p : ConstantPool} {i k r : Nat}
    (h : p.get_method_handle i = .ok (k, r)) :
    p.item_at i = some (.MethodHandle k r) := by
  unfold ConstantPool.get_method_handle at h
  split at h <;> simp_all

/-- Inversion: a successful raw `get_item` means the slot holds that
entry. -/
theorem get_item_ok {p : ConstantPool} {i : Nat} {it : Item}
    (h : p.get_item i = .ok it) : p.item_at i = some it := by
  unfold ConstantPool.get_item at h
  split at h <;> simp_all

/-- Inversion: a successful class resolution pins down the `Class` entry
and its resolved `Utf8` name. -/
theorem retrieve_class_ok {p : ConstantPool} {i : Nat} {v : ClassV}
    (h : retrieve_class p i = .ok v) :
    ∃ u, p.item_at i = some (.Class u) ∧ p.item_at u = some (.Utf8 v.name) := by
  unfold retrieve_class at h
  split at h
  · cases h
  · next name hget =>
    unfold retrieve_utf8 at h
    split at h
    · cases h
    · next s hs =>
      injection h with h1
      exact ⟨name, get_class_ok hget, by rw [← h1]; exact get_utf8_ok hs⟩

/-- Inversion: a successful name-and-type resolution pins down the entry
and both resolved `Utf8` strings. -/
theorem retrieve_name_and_type_ok {p : ConstantPool} {i : Nat}
    {v : NameAndTypeV} (h : retrieve_name_and_type p i = .ok v) :
    ∃ n d, p.item_at i = some (.NameAndType n d) ∧
      p.item_at n = some (.Utf8 v.name) ∧
      p.item_at d = some (.Utf8 v.descriptor) := by
  unfold retrieve_name_and_type at h
  split at h
  · cases h
  · next nd hget =>
    obtain ⟨n1, d1⟩ := nd
    unfold retrieve_utf8 at h
    split at h
    · cases h
    · next sn hn =>
      split at h
      · cases h
      · next sd hd =>
        injection h with h1
        refine ⟨n1, d1, get_name_and_type_ok hget, ?_, ?_⟩
        · rw [← h1]; exact get_utf8_ok hn
        · rw [← h1]; exact get_utf8_ok hd

/-- C4 counterexample: resolving a method-handle index succeeds while
copying the raw referenced entry unresolved — here the materialized value
carries a `FieldRef` entry whose own nested indices 99 and 100 are out of
range, so the resolved value contains unresolved pool indices and
resolution did not fail on the out-of-range nested indices. -/
theorem C4_method_handle_raw_copy :
    retrieve_method_handle
        ⟨[some (.MethodHandle 1 2), some (.FieldRef 99 100)]⟩ 1 =
      .ok ⟨1, .FieldRef 99 100⟩ ∧
    (Item.FieldRef 99 100).indices = [99, 100] ∧
    (ConstantPool.mk
      [some (.MethodHandle 1 2), some (.FieldRef 99 100)]).item_at 99 = none ∧
    (ConstantPool.mk
      [some (.MethodHandle 1 2), some (.FieldRef 99 100)]).item_at 100 = none := by
  exact ⟨rfl, rfl, rfl, rfl⟩

/-- Inversion: a successful `get_string` means the slot holds a `String`
entry. -/
theorem get_string_ok {p : ConstantPool} {i s : Nat}
    (h : p.get_string i = .ok s) : p.item_at i = some (.String s) := by
  unfold ConstantPool.get_string at h
  split at h <;> simp_all

/-- Inversion: a successful `get_method_ref` means the slot holds a
`MethodRef` entry. -/
theorem get_method_ref_ok {p : ConstantPool} {i c n : Nat}
    (h : p.get_method_ref i = .ok (c, n)) :
    p.item_at i = some (.MethodRef c n) := by
  unfold ConstantPool.get_method_ref at h
  split at h <;> simp_all

/-- Inversion: a successful `get_interface_method_ref` means the slot
holds an `InterfaceMethodRef` entry. -/
theorem get_interface_method_ref_ok {p : ConstantPool} {i c n : Nat}
    (h : p.get_interface_method_ref i = .ok (c, n)) :
    p.item_at i = some (.InterfaceMethodRef c n) := by
  unfold ConstantPool.get_interface_method_ref at h
  split at h <;> simp_all

/-- Inversion: a successful `get_method_type` means the slot holds a
`MethodType` entry. -/
theorem get_method_type_ok {p : ConstantPool} {i d : Nat}
    (h : p.get_method_type i = .ok d) :
    p.item_at i = some (.MethodType d) := by
  unfold ConstantPool.get_method_type at h
  split at h <;> simp_all

/-- Inversion: a successful `get_dynamic` means the slot holds a
`Dynamic` entry. -/
theorem get_dynamic_ok {p : ConstantPool} {i b n : Nat}
    (h : p.get_dynamic i = .ok (b, n)) :
    p.item_at i = some (.Dynamic b n) := by
  unfold ConstantPool.get_dynamic at h
  split at h <;> simp_all

/-- Inversion: a successful `get_invoke_dynamic` means the slot holds an
`InvokeDynamic` entry. -/
theorem get_invoke_dynamic_ok {p : ConstantPool} {i b n : Nat}
    (h : p.get_invoke_dynamic i = .ok (b, n)) :
    p.item_at i = some (.InvokeDynamic b n) := by
  unfold ConstantPool.get_invoke_dynamic at h
  split at h <;> simp_all

/-- Inversion: a successful `get_module` means the slot holds a `Module`
entry. -/
theorem get_module_ok {p : ConstantPool} {i n : Nat}
    (h : p.get_module i = .ok n) : p.item_at i = some (.Module n) := by
  unfold ConstantPool.get_module at h
  split at h <;> simp_all

/-- Inversion: a successful `get_package` means the slot holds a
`Package` entry. -/
theorem get_package_ok {p : ConstantPool} {i n : Nat}
    (h : p.get_package i = .ok n) : p.item_at i = some (.Package n) := by
  unfold ConstantPool.get_package at h
  split at h <;> simp_all

/-- Inversion: a successful string resolution pins down the `String`
entry and the resolved `Utf8` content. -/
theorem retrieve_string_ok {p : ConstantPool} {i : Nat} {v : StringV}
    (h : retrieve_string p i = .ok v) :
    ∃ s, p.item_at i = some (.String s) ∧
      p.item_at s = some (.Utf8 v.string) := by
  unfold retrieve_string at h
  split at h
  · cases h
  · next s hget =>
    unfold retrieve_utf8 at h
    split at h
    · cases h
    · next str hs =>
      injection h with h1
      exact ⟨s, get_string_ok hget, by rw [← h1]; exact get_utf8_ok hs⟩

/-- Inversion: a successful method-type resolution pins down the
`MethodType` entry and the resolved descriptor. -/
theorem retrieve_method_type_ok {p : ConstantPool} {i : Nat}
    {v : MethodTypeV} (h : retrieve_method_type p i = .ok v) :
    ∃ u, p.item_at i = some (.MethodType u) ∧
      p.item_at u = some (.Utf8 v.descriptor) := by
  unfold retrieve_method_type at h
  split at h
  · cases h
  · next u hget =>
    unfold retrieve_utf8 at h
    split at h
    · cases h
    · next s hs =>
      injection h with h1
      exact ⟨u, get_method_type_ok hget, by rw [← h1]; exact get_utf8_ok hs⟩

/-- Inversion: a successful module resolution pins down the `Module`
entry and the resolved name. -/
theorem retrieve_module_ok {p : ConstantPool} {i : Nat} {v : ModuleV}
    (h : retrieve_module p i = .ok v) :
    ∃ u, p.item_at i = some (.Module u) ∧
      p.item_at u = some (.Utf8 v.name) := by
  unfold retrieve_module at h
  split at h
  · cases h
  · next u hget =>
    unfold retrieve_utf8 at h
    split at h
    · cases h
    · next s hs =>
      injection h with h1
      exact ⟨u, get_module_ok hget, by rw [← h1]; exact get_utf8_ok hs⟩

/-- Inversion: a successful package resolution pins down the `Package`
entry and the resolved name. -/
theorem retrieve_package_ok {p : ConstantPool} {i : Nat} {v : PackageV}
    (h : retrieve_package p i = .ok v) :
    ∃ u, p.item_at i = some (.Package u) ∧
      p.item_at u = some (.Utf8 v.name) := by
  unfold retrieve_package at h
  split at h
  · cases h
  · next u hget =>
    unfold retrieve_utf8 at h
    split at h
    · cases h
    · next s hs =>
      injection h with h1
      exact ⟨u, get_package_ok hget, by rw [← h1]; exact get_utf8_ok hs⟩

/-- Inversion: a successful field-reference resolution forces a correctly
tagged, in-range entry at every level of the chain. -/
theorem retrieve_field_ref_ok {p : ConstantPool} {i : Nat} {v : FieldRefV}
    (h : retrieve_field_ref p i = .ok v) :
    ∃ c n u1 u2 u3,
      p.item_at i = some (.FieldRef c n) ∧
      p.item_at c = some (.Class u1) ∧
      p.item_at u1 = some (.Utf8 v.cls.name) ∧
      p.item_at n = some (.NameAndType u2 u3) ∧
      p.item_at u2 = some (.Utf8 v.name_and_type.name) ∧
      p.item_at u3 = some (.Utf8 v.name_and_type.descriptor) := by
  unfold retrieve_field_ref at h
  split at h
  · cases h
  · next cn hget =>
    obtain ⟨c1, n1⟩ := cn
    split at h
    · cases h
    · next cv hc =>
      split at h
      · cases h
      · next ntv hnt =>
        injection h with h1
        obtain ⟨u1, hcls, hu1⟩ := retrieve_class_ok hc
        obtain ⟨u2, u3, hnat, hu2, hu3⟩ := retrieve_name_and_type_ok hnt
        refine ⟨c1, n1, u1, u2, u3, get_field_ref_ok hget, hcls, ?_, hnat,
          ?_, ?_⟩ <;> rw [← h1]
        · exact hu1
        · exact hu2
        · exact hu3

/-- Inversion: a successful method-reference resolution forces a
correctly tagged, in-range entry at every level of the chain. -/
theorem retrieve_method_ref_ok {p : ConstantPool} {i : Nat} {v : MethodRefV}
    (h : retrieve_method_ref p i = .ok v) :
    ∃ c n u1 u2 u3,
      p.item_at i = some (.MethodRef c n) ∧
      p.item_at c = some (.Class u1) ∧
      p.item_at u1 = some (.Utf8 v.cls.name) ∧
      p.item_at n = some (.NameAndType u2 u3) ∧
      p.item_at u2 = some (.Utf8 v.name_and_type.name) ∧
      p.item_at u3 = some (.Utf8 v.name_and_type.descriptor) := by
  unfold retrieve_method_ref at h
  split at h
  · cases h
  · next cn hget =>
    obtain ⟨c1, n1⟩ := cn
    split at h
    · cases h
    · next cv hc =>
      split at h
      · cases h
      · next ntv hnt =>
        injection h with h1
        obtain ⟨u1, hcls, hu1⟩ := retrieve_class_ok hc
        obtain ⟨u2, u3, hnat, hu2, hu3⟩ := retrieve_name_and_type_ok hnt
        refine ⟨c1, n1, u1, u2, u3, get_method_ref_ok hget, hcls, ?_, hnat,
          ?_, ?_⟩ <;> rw [← h1]
        · exact hu1
        · exact hu2
        · exact hu3

/-- Inversion: a successful interface-method-reference resolution forces
a correctly tagged, in-range entry at every level of the chain. -/
theorem retrieve_interface_method_ref_ok {p : ConstantPool} {i : Nat}
    {v : InterfaceMethodRefV} (h : retrieve_interface_method_ref p i = .ok v) :
    ∃ c n u1 u2 u3,
      p.item_at i = some (.InterfaceMethodRef c n) ∧
      p.item_at c = some (.Class u1) ∧
      p.item_at u1 = some (.Utf8 v.cls.name) ∧
      p.item_at n = some (.NameAndType u2 u3) ∧
      p.item_at u2 = some (.Utf8 v.name_and_type.name) ∧
      p.item_at u3 = some (.Utf8 v.name_and_type.descriptor) := by
  unfold retrieve_interface_method_ref at h
  split at h
  · cases h
  · next cn hget =>
    obtain ⟨c1, n1⟩ := cn
    split at h
    · cases h
    · next cv hc =>
      split at h
      · cases h
      · next ntv hnt =>
        injection h with h1
        obtain ⟨u1, hcls, hu1⟩ := retrieve_class_ok hc
        obtain ⟨u2, u3, hnat, hu2, hu3⟩ := retrieve_name_and_type_ok hnt
        refine ⟨c1, n1, u1, u2, u3, get_interface_method_ref_ok hget, hcls,
          ?_, hnat, ?_, ?_⟩ <;> rw [← h1]
        · exact hu1
        · exact hu2
        · exact hu3

/-- Inversion: a successful dynamic resolution copies the bootstrap index
and forces a resolved name-and-type chain. -/
theorem retrieve_dynamic_ok {p : ConstantPool} {i : Nat} {v : DynamicV}
    (h : retrieve_dynamic p i = .ok v) :
    ∃ n u2 u3,
      p.item_at i = some (.Dynamic v.bootstrap_method_attr n) ∧
      p.item_at n = some (.NameAndType u2 u3) ∧
      p.item_at u2 = some (.Utf8 v.name_and_type.name) ∧
      p.item_at u3 = some (.Utf8 v.name_and_type.descriptor) := by
  unfold retrieve_dynamic at h
  split at h
  · cases h
  · next bn hget =>
    obtain ⟨b1, n1⟩ := bn
    split at h
    · cases h
    · next nt hnt =>
      injection h with h1
      obtain ⟨u2, u3, hnat, hu2, hu3⟩ := retrieve_name_and_type_ok hnt
      refine ⟨n1, u2, u3, ?_, hnat, ?_, ?_⟩ <;> rw [← h1]
      · exact get_dynamic_ok hget
      · exact hu2
      · exact hu3

/-- Inversion: a successful invoke-dynamic resolution copies the
bootstrap index and forces a resolved name-and-type chain. -/
theorem retrieve_invoke_dynamic_ok {p : ConstantPool} {i : Nat}
    {v : InvokeDynamicV} (h : retrieve_invoke_dynamic p i = .ok v) :
    ∃ n u2 u3,
      p.item_at i = some (.InvokeDynamic v.bootstrap_method_attr n) ∧
      p.item_at n = some (.NameAndType u2 u3) ∧
      p.item_at u2 = some (.Utf8 v.name_and_type.name) ∧
      p.item_at u3 = some (.Utf8 v.name_and_type.descriptor) := by
  unfold retrieve_invoke_dynamic at h
  split at h
  · cases h
  · next bn hget =>
    obtain ⟨b1, n1⟩ := bn
    split at h
    · cases h
    · next nt hnt =>
      injection h with h1
      obtain ⟨u2, u3, hnat, hu2, hu3⟩ := retrieve_name_and_type_ok hnt
      refine ⟨n1, u2, u3, ?_, hnat, ?_, ?_⟩ <;> rw [← h1]
      · exact get_invoke_dynamic_ok hget
      · exact hu2
      · exact hu3

/-- Inversion: a successful method-handle resolution checks the handle
tag and the range of the reference index, but only copies the raw
referenced entry. -/
theorem retrieve_method_handle_ok {p : ConstantPool} {i : Nat}
    {w : MethodHandleV} (h : retrieve_method_handle p i = .ok w) :
    ∃ r, p.item_at i = some (.MethodHandle w.kind r) ∧
      p.item_at r = some w.reference := by
  unfold retrieve_method_handle at h
  split at h
  · cases h
  · next kr hget =>
    obtain ⟨k1, r1⟩ := kr
    split at h
    · cases h
    · next it hit =>
      injection h with h1
      refine ⟨r1, ?_, ?_⟩ <;> rw [← h1]
      · exact get_method_handle_ok hget
      · exact get_item_ok hit

/-- C4 (amended): resolving a typed index validates the entry's tag and
recursively resolves the nested indices for every composite kind whose
target is built from retrieve calls — class, string, name-and-type,
field/method/interface-method references, method type, dynamic,
invoke-dynamic, module and package: a successful resolution forces a
correctly tagged, in-range entry at every level of its chain and the
materialized value holds only strings and numbers; the method-handle
entry's `reference` field is the exception: its resolution only
dereferences the reference index one level and copies the raw tagged
entry, whose own nested indices stay unresolved and unvalidated. -/
theorem C4_resolution_recursive (p : ConstantPool) (i : Nat) :
    (∀ v : ClassV, retrieve_class p i = .ok v →
      ∃ u, p.item_at i = some (.Class u) ∧
        p.item_at u = some (.Utf8 v.name)) ∧
    (∀ v : StringV, retrieve_string p i = .ok v →
      ∃ s, p.item_at i = some (.String s) ∧
        p.item_at s = some (.Utf8 v.string)) ∧
    (∀ v : NameAndTypeV, retrieve_name_and_type p i = .ok v →
      ∃ n d, p.item_at i = some (.NameAndType n d) ∧
        p.item_at n = some (.Utf8 v.name) ∧
        p.item_at d = some (.Utf8 v.descriptor)) ∧
    (∀ v : FieldRefV, retrieve_field_ref p i = .ok v →
      ∃ c n u1 u2 u3,
        p.item_at i = some (.FieldRef c n) ∧
        p.item_at c = some (.Class u1) ∧
        p.item_at u1 = some (.Utf8 v.cls.name) ∧
        p.item_at n = some (.NameAndType u2 u3) ∧
        p.item_at u2 = some (.Utf8 v.name_and_type.name) ∧
        p.item_at u3 = some (.Utf8 v.name_and_type.descriptor)) ∧
    (∀ v : MethodRefV, retrieve_method_ref p i = .ok v →
      ∃ c n u1 u2 u3,
        p.item_at i = some (.MethodRef c n) ∧
        p.item_at c = some (.Class u1) ∧
        p.item_at u1 = some (.Utf8 v.cls.name) ∧
        p.item_at n = some (.NameAndType u2 u3) ∧
        p.item_at u2 = some (.Utf8 v.name_and_type.name) ∧
        p.item_at u3 = some (.Utf8 v.name_and_type.descriptor)) ∧
    (∀ v : InterfaceMethodRefV, retrieve_interface_method_ref p i = .ok v →
      ∃ c n u1 u2 u3,
        p.item_at i = some (.InterfaceMethodRef c n) ∧
        p.item_at c = some (.Class u1) ∧
        p.item_at u1 = some (.Utf8 v.cls.name) ∧
        p.item_at n = some (.NameAndType u2 u3) ∧
        p.item_at u2 = some (.Utf8 v.name_and_type.name) ∧
        p.item_at u3 = some (.Utf8 v.name_and_type.descriptor)) ∧
    (∀ v : MethodTypeV, retrieve_method_type p i = .ok v →
      ∃ u, p.item_at i = some (.MethodType u) ∧
        p.item_at u = some (.Utf8 v.descriptor)) ∧
    (∀ v : DynamicV, retrieve_dynamic p i = .ok v →
      ∃ n u2 u3,
        p.item_at i = some (.Dynamic v.bootstrap_method_attr n) ∧
        p.item_at n = some (.NameAndType u2 u3) ∧
        p.item_at u2 = some (.Utf8 v.name_and_type.name) ∧
        p.item_at u3 = some (.Utf8 v.name_and_type.descriptor)) ∧
    (∀ v : InvokeDynamicV, retrieve_invoke_dynamic p i = .ok v →
      ∃ n u2 u3,
        p.item_at i = some (.InvokeDynamic v.bootstrap_method_attr n) ∧
        p.item_at n = some (.NameAndType u2 u3) ∧
        p.item_at u2 = some (.Utf8 v.name_and_type.name) ∧
        p.item_at u3 = some (.Utf8 v.name_and_type.descriptor)) ∧
    (∀ v : ModuleV, retrieve_module p i = .ok v →
      ∃ u, p.item_at i = some (.Module u) ∧
        p.item_at u = some (.Utf8 v.name)) ∧
    (∀ v : PackageV, retrieve_package p i = .ok v →
      ∃ u, p.item_at i = some (.Package u) ∧
        p.item_at u = some (.Utf8 v.name)) ∧
    (∀ w : MethodHandleV, retrieve_method_handle p i = .ok w →
      ∃ r, p.item_at i = some (.MethodHandle w.kind r) ∧
        p.item_at r = some w.reference) :=
  ⟨fun _ h => retrieve_class_ok h,
    fun _ h => retrieve_string_ok h,
    fun _ h => retrieve_name_and_type_ok h,
    fun _ h => retrieve_field_ref_ok h,
    fun _ h => retrieve_method_ref_ok h,
    fun _ h => retrieve_interface_method_ref_ok h,
    fun _ h => retrieve_method_type_ok h,
    fun _ h => retrieve_dynamic_ok h,
    fun _ h => retrieve_invoke_dynamic_ok h,
    fun _ h => retrieve_module_ok h,
    fun _ h => retrieve_package_ok h,
    fun _ h => retrieve_method_handle_ok h⟩

/-- C4 witness: a six-entry pool where resolving the `FieldRef` at index 1
succeeds, instantiating the field-reference conjunct of the
characterization. -/
theorem C4_resolution_recursive_witness :
    retrieve_field_ref
        ⟨[some (.FieldRef 2 4), some (.Class 3), some (.Utf8 [65]),
          some (.NameAndType 5 6), some (.Utf8 [66]), some (.Utf8 [67])]⟩ 1 =
      .ok ⟨⟨[65]⟩, ⟨[66], [67]⟩⟩ ∧
    (∃ c n u1 u2 u3,
      (ConstantPool.mk
        [some (.FieldRef 2 4), some (.Class 3), some (.Utf8 [65]),
          some (.NameAndType 5 6), some (.Utf8 [66]),
          some (.Utf8 [67])]).item_at 1 = some (.FieldRef c n) ∧
      (ConstantPool.mk
        [some (.FieldRef 2 4), some (.Class 3), some (.Utf8 [65]),
          some (.NameAndType 5 6), some (.Utf8 [66]),
          some (.Utf8 [67])]).item_at c = some (.Class u1) ∧
      (ConstantPool.mk
        [some (.FieldRef 2 4), some (.Class 3), some (.Utf8 [65]),
          some (.NameAndType 5 6), some (.Utf8 [66]),
          some (.Utf8 [67])]).item_at u1 =
        some (.Utf8 (FieldRefV.mk ⟨[65]⟩ ⟨[66], [67]⟩).cls.name) ∧
      (ConstantPool.mk
        [some (.FieldRef 2 4), some (.Class 3), some (.Utf8 [65]),
          some (.NameAndType 5 6), some (.Utf8 [66]),
          some (.Utf8 [67])]).item_at n = some (.NameAndType u2 u3) ∧
      (ConstantPool.mk
        [some (.FieldRef 2 4), some (.Class 3), some (.Utf8 [65]),
          some (.NameAndType 5 6), some (.Utf8 [66]),
          some (.Utf8 [67])]).item_at u2 =
        some (.Utf8 (FieldRefV.mk ⟨[65]⟩ ⟨[66], [67]⟩).name_and_type.name) ∧
      (ConstantPool.mk
        [some (.FieldRef 2 4), some (.Class 3), some (.Utf8 [65]),
          some (.NameAndType 5 6), some (.Utf8 [66]),
          some (.Utf8 [67])]).item_at u3 =
        some (.Utf8 (FieldRefV.mk ⟨[65]⟩ ⟨[66], [67]⟩).name_and_type.descriptor)) :=
  ⟨rfl,
    (C4_resolution_recursive
      ⟨[some (.FieldRef 2 4), some (.Class 3), some (.Utf8 [65]),
        some (.NameAndType 5 6), some (.Utf8 [66]), some (.Utf8 [67])]⟩
      1).2.2.2.1
      ⟨⟨[65]⟩, ⟨[66], [67]⟩⟩ rfl⟩

/-- C9 counterexample: a two-item counted sequence over a one-byte buffer
with `u16` items — the first `next()` yields a failed decode
(`UnexpectedEoi`), and the claim says no further items follow, yet the
second `next()` on the resulting state yields another item (a further
error). -/
theorem C9_yields_after_error :
    DecodeCounted.next (fun d => d.read_be 2)
        ⟨Decoder.new [1] Context.None, 2⟩ =
      (some (.error ⟨.UnexpectedEoi, some 0, .None⟩),
        ⟨Decoder.new [1] Context.None, 1⟩) ∧
    DecodeCounted.next (fun d => d.read_be 2)
        ⟨Decoder.new [1] Context.None, 1⟩ =
      (some (.error ⟨.UnexpectedEoi, some 0, .None⟩),
        ⟨Decoder.new [1] Context.None, 0⟩) := by
  exact ⟨rfl, rfl⟩

/-- C9 (amended): the counted sequence is fused with respect to counter
exhaustion — with a zero counter, `next()` yields nothing and leaves the
state unchanged, so every later call also yields nothing — but an item
decode failure does not stop it: whenever the counter is positive,
`next()` yields exactly the item decode's result (success or error) and
decrements the counter, regardless of any earlier failure. -/
theorem C9_next_fused_on_exhaustion
    (f : Decoder → Decoder × Except DecodeError Nat) (s : DecodeCounted) :
    (s.remaining = 0 → DecodeCounted.next f s = (none, s)) ∧
    (0 < s.remaining →
      DecodeCounted.next f s =
        (some (f s.decoder).2, ⟨(f s.decoder).1, s.remaining - 1⟩)) := by
  obtain ⟨d, r⟩ := s
  cases r with
  | zero =>
    refine ⟨fun _ => rfl, fun h => absurd h (by simp)⟩
  | succ m =>
    refine ⟨fun h => (nomatch h), fun _ => rfl⟩

/-- C9 witness: the positive-counter conjunct at the two-item sequence
over the one-byte buffer. -/
theorem C9_next_fused_on_exhaustion_witness :
    (0 < (DecodeCounted.mk (Decoder.new [1] Context.None) 2).remaining) ∧
    DecodeCounted.next (fun d : Decoder => d.read_be 2)
        ⟨Decoder.new [1] Context.None, 2⟩ =
      (some ((fun d : Decoder => d.read_be 2) (Decoder.new [1] Context.None)).2,
        ⟨((fun d : Decoder => d.read_be 2) (Decoder.new [1] Context.None)).1,
          2 - 1⟩) :=
  ⟨by decide,
    (C9_next_fused_on_exhaustion (fun d : Decoder => d.read_be 2)
      ⟨Decoder.new [1] Context.None, 2⟩).2 (by decide)⟩

/-- Reading back a stashed `i32` bound through the `u32` counter is the
identity on the `i32` range. -/
theorem toI32_toU32 {x : Int} (h1 : -(2 : Int) ^ 31 ≤ x)
    (h2 : x < (2 : Int) ^ 31) : toI32 (toU32 x) = x := by
  simp only [toU32, toI32]
  split <;> omega

/-- Lemma: `toU32` is the identity on nonnegative values below `2 ^ 32`. -/
theorem toU32_eq_toNat {x : Int} (h0 : 0 ≤ x) (h : x < (2 : Int) ^ 32) :
    toU32 x = x.toNat := by
  simp only [toU32]
  omega

/-- Lemma: `toU32` wraps `2 ^ 32` to zero. -/
theorem toU32_two_pow_32 : toU32 ((2 : Int) ^ 32) = 0 := by
  simp only [toU32]
  omega

/-- Lemma: `write_default` in state `Default` emits the label and advances to
`Low`. -/
theorem write_default_start (w : TableSwitchWriter) (lab : Nat)
    (h : w.state = .Default) :
    w.write_default lab =
      (TableSwitchWriter.mk (w.buf ++ u32_be lab) .Low w.remaining, none) := by
  unfold TableSwitchWriter.write_default
  rw [h]
  rfl

/-- Lemma: `write_low` in state `Low` emits the bound, stashes it, and advances
to `High`. -/
theorem write_low_start (w : TableSwitchWriter) (low : Int)
    (h : w.state = .Low) :
    w.write_low low =
      (TableSwitchWriter.mk (w.buf ++ i32_be low) .High (toU32 low), none) := by
  unfold TableSwitchWriter.write_low
  rw [h]
  rfl

/-- Lemma: `write_high` in state `High` with an in-order low bound emits the
bound, sets the jump counter, and advances to `Jumps`. -/
theorem write_high_ok (w : TableSwitchWriter) (high : Int)
    (h : w.state = .High) (hle : toI32 w.remaining ≤ high) :
    w.write_high high =
      (TableSwitchWriter.mk (w.buf ++ i32_be high) .Jumps
        (toU32 (high - toI32 w.remaining + 1)), none) := by
  unfold TableSwitchWriter.write_high
  rw [h]
  show (if toI32 w.remaining > high then _ else _) = _
  rw [if_neg (not_lt.mpr hle)]

/-- Lemma: `write_jump` in state `Jumps` with counter 1 emits the label and
finishes. -/
theorem write_jump_one (w : TableSwitchWriter) (lab : Nat)
    (h : w.state = .Jumps) (hr : w.remaining = 1) :
    w.write_jump lab =
      (TableSwitchWriter.mk (w.buf ++ u32_be lab) .Finished 0, none) := by
  unfold TableSwitchWriter.write_jump
  rw [h, hr]
  rfl

/-- Lemma: `write_jump` in state `Jumps` with counter at least 2 emits the label
and decrements. -/
theorem write_jump_step (w : TableSwitchWriter) (lab : Nat) (m : Nat)
    (h : w.state = .Jumps) (hr : w.remaining = m + 2) :
    w.write_jump lab =
      (TableSwitchWriter.mk (w.buf ++ u32_be lab) .Jumps (m + 1), none) := by
  unfold TableSwitchWriter.write_jump
  rw [h, hr]
  rw [if_neg (by omega), if_neg (by omega)]
  rfl

/-- Lemma: `write_jump` in state `Jumps` with counter 0 emits the label and then
fails with `CantChangeAnymore` (the source's early return, counter and
state untouched). -/
theorem write_jump_zero (w : TableSwitchWriter) (lab : Nat)
    (h : w.state = .Jumps) (hr : w.remaining = 0) :
    w.write_jump lab =
      (TableSwitchWriter.mk (w.buf ++ u32_be lab) .Jumps 0,
        some ⟨.CantChangeAnymore, .Code⟩) := by
  unfold TableSwitchWriter.write_jump
  rw [h, hr]
  rfl

/-- Lemma: `write_jump` in state `Finished` fails the state check with
`CantChangeAnymore`. -/
theorem write_jump_finished (w : TableSwitchWriter) (lab : Nat)
    (h : w.state = .Finished) :
    w.write_jump lab = (w, some ⟨.CantChangeAnymore, .Code⟩) := by
  unfold TableSwitchWriter.write_jump
  rw [h]
  rfl

/-- The straight-line `Default → Low → High → Jumps` chain: with in-range
`low ≤ high` the three writes succeed and leave a `Jumps`-state writer
whose counter is `(high - low + 1) as u32`. -/
theorem tswAfterHigh_ok (off dl : Nat) (low high : Int)
    (h1 : -(2 : Int) ^ 31 ≤ low) (h2 : low ≤ high)
    (h3 : high < (2 : Int) ^ 31) :
    tswAfterHigh off dl low high =
      (TableSwitchWriter.mk
        ((TableSwitchWriter.new off).buf ++ u32_be dl ++ i32_be low ++
          i32_be high)
        .Jumps (toU32 (high - low + 1)), none) := by
  have hlow : toI32 (toU32 low) = low := toI32_toU32 h1 (by omega)
  unfold tswAfterHigh
  rw [write_default_start (TableSwitchWriter.new off) dl rfl]
  rw [write_low_start _ low rfl]
  rw [write_high_ok _ high rfl
    (by show toI32 (toU32 low) ≤ high; rw [hlow]; exact h2)]
  show Prod.mk (TableSwitchWriter.mk _ _ (toU32 (high - toI32 (toU32 low) + 1)))
    _ = _
  rw [hlow]

/-- Running `write_jump` from a `Jumps` state exactly `counter` times
succeeds and lands in `Finished` with a zero counter. -/
theorem writeJumps_run (n : Nat) :
    ∀ w : TableSwitchWriter, w.state = .Jumps → w.remaining = n → 1 ≤ n →
      (w.writeJumps n).2 = none ∧ (w.writeJumps n).1.state = .Finished ∧
        (w.writeJumps n).1.remaining = 0 := by
  induction n with
  | zero => intro w _ _ h1; omega
  | succ m ih =>
    intro w hs hr _
    cases m with
    | zero =>
      have hstep := write_jump_one w 0 hs hr
      have e1 : w.writeJumps 1 =
          (TableSwitchWriter.mk (w.buf ++ u32_be 0) .Finished 0, none) := by
        unfold TableSwitchWriter.writeJumps
        rw [hstep]
        rfl
      rw [e1]
      exact ⟨rfl, rfl, rfl⟩
    | succ k =>
      have hstep := write_jump_step w 0 k hs hr
      have e1 : w.writeJumps (k + 2) =
          (TableSwitchWriter.mk (w.buf ++ u32_be 0) .Jumps
            (k + 1)).writeJumps (k + 1) := by
        unfold TableSwitchWriter.writeJumps
        rw [hstep]
        rfl
      rw [e1]
      exact ih _ rfl rfl (by omega)

/-- From a `Jumps` state with an exhausted counter, the very next
`write_jump` inside the run fails, so a nonempty run never completes
without error. -/
theorem writeJumps_zero_stuck (w : TableSwitchWriter) (k : Nat)
    (hs : w.state = .Jumps) (hr : w.remaining = 0) :
    (w.writeJumps (k + 1)).2 = some ⟨.CantChangeAnymore, .Code⟩ := by
  unfold TableSwitchWriter.writeJumps
  rw [write_jump_zero w 0 hs hr]

/-- C6: after `write_default`, `write_low(low)` and `write_high(high)`
with `low ≤ high` (all three succeeding), if exactly
`remaining = high - low + 1` `write_jump` calls all succeed, then one
further `write_jump` call fails with the `CantChangeAnymore` ("cannot
change anymore") error kind. -/
theorem C6_extra_jump_cant_change (off dl : Nat) (low high : Int)
    (h1 : -(2 : Int) ^ 31 ≤ low) (h2 : low ≤ high)
    (h3 : high < (2 : Int) ^ 31) :
    (tswAfterHigh off dl low high).2 = none ∧
    (((tswAfterHigh off dl low high).1.writeJumps
        ((high - low + 1).toNat)).2 = none →
      (((tswAfterHigh off dl low high).1.writeJumps
          ((high - low + 1).toNat)).1.write_jump 0).2 =
        some ⟨.CantChangeAnymore, .Code⟩) := by
  have hok := tswAfterHigh_ok off dl low high h1 h2 h3
  have hN1 : (1 : Int) ≤ high - low + 1 := by omega
  constructor
  · rw [hok]
  · intro hnone
    rcases lt_or_eq_of_le (show high - low + 1 ≤ (2 : Int) ^ 32 by omega)
      with hlt | heq
    · have hrem : (tswAfterHigh off dl low high).1.remaining =
          (high - low + 1).toNat := by
        rw [hok]
        exact toU32_eq_toNat (by omega) hlt
      have hrun := writeJumps_run ((high - low + 1).toNat)
        (tswAfterHigh off dl low high).1 (by rw [hok]) hrem (by omega)
      rw [write_jump_finished _ 0 hrun.2.1]
    · exfalso
      have hrem : (tswAfterHigh off dl low high).1.remaining = 0 := by
        rw [hok]
        show toU32 (high - low + 1) = 0
        rw [heq]
        exact toU32_two_pow_32
      obtain ⟨k, hk⟩ : ∃ k, (high - low + 1).toNat = k + 1 :=
        ⟨2 ^ 32 - 1, by omega⟩
      rw [hk] at hnone
      rw [writeJumps_zero_stuck (tswAfterHigh off dl low high).1 k
        (by rw [hok]) hrem] at hnone
      cases hnone

/-- C6 witness: `low = 0`, `high = 1` — two jump writes succeed and the
third fails with `CantChangeAnymore`. -/
theorem C6_extra_jump_cant_change_witness :
    (((tswAfterHigh 0 0 0 1).1.writeJumps
        (((1 : Int) - 0 + 1).toNat)).1.write_jump 0).2 =
      some ⟨.CantChangeAnymore, .Code⟩ :=
  (C6_extra_jump_cant_change 0 0 0 1 (by norm_num) (by norm_num)
    (by norm_num)).2 (by rfl)

/-- C10 counterexample: with `low = i32::MIN` and `high = i32::MAX`
(`low ≤ high`, so `write_high` accepts), the wrapped counter
`(high - low + 1) as u32` is 0, so the writer enters the `Jumps` state
with `remaining = 0` — the claimed invariant `remaining ≥ 1` fails — and
the supposedly unreachable `remaining == 0` branch of `write_jump` then
fires: the call emits a 4-byte label and fails with `CantChangeAnymore`
while the state check had already passed. -/
theorem C10_overflow_counterexample :
    (tswAfterHigh 0 0 (-(2 ^ 31)) (2 ^ 31 - 1)).2 = none ∧
    (tswAfterHigh 0 0 (-(2 ^ 31)) (2 ^ 31 - 1)).1.state = .Jumps ∧
    (tswAfterHigh 0 0 (-(2 ^ 31)) (2 ^ 31 - 1)).1.remaining = 0 ∧
    ((tswAfterHigh 0 0 (-(2 ^ 31)) (2 ^ 31 - 1)).1.write_jump 0).2 =
      some ⟨.CantChangeAnymore, .Code⟩ ∧
    ((tswAfterHigh 0 0 (-(2 ^ 31)) (2 ^ 31 - 1)).1.write_jump 0).1.buf.length =
      (tswAfterHigh 0 0 (-(2 ^ 31)) (2 ^ 31 - 1)).1.buf.length + 4 := by
  exact ⟨rfl, rfl, rfl, rfl, rfl⟩

/-- C10 (amended): excluding the single wrapped pair
`(low, high) = (i32::MIN, i32::MAX)`, `write_high` enters the `Jumps`
state with `remaining = high - low + 1 ≥ 1`; and from any `Jumps` state
with `remaining ≥ 1`, an accepted `write_jump` emits exactly one 4-byte
jump label, never reaches the `remaining == 0` branch, and preserves the
invariant (if it stays in `Jumps` the counter is still at least 1, the
call bringing the counter to 0 moving to `Finished` instead). -/
theorem C10_jumps_invariant :
    (∀ (off dl : Nat) (low high : Int), -(2 : Int) ^ 31 ≤ low → low ≤ high →
      high < (2 : Int) ^ 31 →
      ¬(low = -(2 : Int) ^ 31 ∧ high = (2 : Int) ^ 31 - 1) →
      (tswAfterHigh off dl low high).2 = none ∧
      (tswAfterHigh off dl low high).1.state = .Jumps ∧
      (tswAfterHigh off dl low high).1.remaining = (high - low + 1).toNat ∧
      1 ≤ (tswAfterHigh off dl low high).1.remaining) ∧
    (∀ (w : TableSwitchWriter) (lab : Nat), w.state = .Jumps →
      1 ≤ w.remaining →
      (w.write_jump lab).2 = none ∧
      (w.write_jump lab).1.buf.length = w.buf.length + 4 ∧
      ((w.write_jump lab).1.state = .Jumps →
        1 ≤ (w.write_jump lab).1.remaining)) := by
  constructor
  · intro off dl low high h1 h2 h3 hne
    have hok := tswAfterHigh_ok off dl low high h1 h2 h3
    have hlt : high - low + 1 < (2 : Int) ^ 32 := by
      rcases not_and_or.mp hne with h | h <;> omega
    have hrem : (tswAfterHigh off dl low high).1.remaining =
        (high - low + 1).toNat := by
      rw [hok]
      exact toU32_eq_toNat (by omega) hlt
    refine ⟨by rw [hok], by rw [hok], hrem, ?_⟩
    rw [hrem]
    omega
  · intro w lab hs hr
    cases hrem : w.remaining with
    | zero => omega
    | succ m =>
      cases m with
      | zero =>
        rw [write_jump_one w lab hs hrem]
        refine ⟨rfl, by simp [u32_be], fun hj => (nomatch hj)⟩
      | succ k =>
        rw [write_jump_step w lab k hs hrem]
        refine ⟨rfl, by simp [u32_be], fun _ => Nat.succ_le_succ (Nat.zero_le k)⟩

/-- C10 witness: the invariant instantiated at `low = high = 0`
(`remaining = 1`). -/
theorem C10_jumps_invariant_witness :
    (tswAfterHigh 0 0 0 0).2 = none ∧
    (tswAfterHigh 0 0 0 0).1.state = .Jumps ∧
    (tswAfterHigh 0 0 0 0).1.remaining = ((0 : Int) - 0 + 1).toNat ∧
    1 ≤ (tswAfterHigh 0 0 0 0).1.remaining :=
  C10_jumps_invariant.1 0 0 0 0 (by norm_num) (by norm_num) (by norm_num)
    (by decide)

/-- A replacing write of a single byte over the counter slot patches it
in place, provided at least one byte follows the slot. -/
theorem replacing_write_patch (base tail : List Nat) (b old : Nat)
    (hlt : 0 < tail.length) :
    replacing_write (base ++ old :: tail) base.length [b] =
      .ok (base ++ b :: tail) := by
  have hlen : (base ++ old :: tail).length = base.length + 1 + tail.length := by
    simp [List.length_append]
    omega
  have hcond : ([b] : List Nat).length <
      (base ++ old :: tail).length - base.length := by
    show (1 : Nat) < (base ++ old :: tail).length - base.length
    rw [hlen]
    omega
  unfold replacing_write
  rw [if_pos hcond]
  have ht : (base ++ old :: tail).take base.length = base := List.take_left _ _
  have hd : (base ++ old :: tail).drop (base.length + 1) = tail := by
    rw [show base ++ old :: tail = (base ++ [old]) ++ tail by simp]
    rw [show base.length + 1 = (base ++ [old]).length by simp]
    exact List.drop_left _ _
  rw [show base.length + ([b] : List Nat).length = base.length + 1 from rfl]
  rw [ht, hd]
  simp

/-- One `CountedWriter::write` step from the invariant state: counter
below saturation, item bytes appended, counter incremented and re-patched
in place. -/
theorem countedWriter_u8_step (base acc it : List Nat) (pe k : Nat)
    (hpe : pe ≤ base.length) (hk : k < 255) (hit : it ≠ []) :
    (CountedWriterU8.mk (base.length - pe)
        (some (ClassWriter.mk (base ++ k :: acc) pe)) k).write it =
      .ok (CountedWriterU8.mk (base.length - pe)
        (some (ClassWriter.mk (base ++ (k + 1) :: (acc ++ it)) pe))
        (k + 1)) := by
  have hitlen : 0 < it.length := List.length_pos.mpr hit
  simp only [CountedWriterU8.write]
  rw [if_neg (by omega)]
  rw [show (base ++ k :: acc) ++ it = base ++ k :: (acc ++ it) by simp]
  rw [show base.length - pe + pe = base.length by omega]
  rw [replacing_write_patch base (acc ++ it) (k + 1) k
    (by simp [List.length_append]; omega)]

/-- Folding `write` over nonempty items from the invariant state: every
step succeeds, the items are appended in order, and the placeholder byte
always holds the count of items written so far. -/
theorem countedWriter_u8_writeAll (items : List (List Nat)) :
    ∀ (base acc : List Nat) (pe k : Nat), pe ≤ base.length →
      (∀ it ∈ items, it ≠ []) → k + items.length ≤ 255 →
      (CountedWriterU8.mk (base.length - pe)
          (some (ClassWriter.mk (base ++ k :: acc) pe)) k).writeAll items =
        .ok (CountedWriterU8.mk (base.length - pe)
          (some (ClassWriter.mk
            (base ++ (k + items.length) :: (acc ++ items.flatten)) pe))
          (k + items.length)) := by
  induction items with
  | nil =>
    intro base acc pe k hpe hne hk
    simp [CountedWriterU8.writeAll]
  | cons it rest ih =>
    intro base acc pe k hpe hne hk
    have hit : it ≠ [] := hne it (List.mem_cons_self it rest)
    have hstep := countedWriter_u8_step base acc it pe k hpe
      (by simp at hk; omega) hit
    have hw : (CountedWriterU8.mk (base.length - pe)
        (some (ClassWriter.mk (base ++ k :: acc) pe)) k).writeAll
          (it :: rest) =
        (CountedWriterU8.mk (base.length - pe)
          (some (ClassWriter.mk (base ++ (k + 1) :: (acc ++ it)) pe))
          (k + 1)).writeAll rest := by
      simp only [CountedWriterU8.writeAll]
      rw [hstep]
    rw [hw]
    rw [ih base (acc ++ it) pe (k + 1) hpe
      (fun x hx => hne x (List.mem_cons_of_mem _ hx))
      (by simp at hk ⊢; omega)]
    rw [show k + 1 + rest.length = k + (it :: rest).length by simp; omega]
    rw [List.append_assoc]
    rfl

/-- C3 (amended): over any class writer, a `u8`-counted writer accepts
any sequence of up to 255 items whose writers succeed and each append at
least one byte — after `k` of them the buffer is the original contents,
then the placeholder byte holding exactly `k`, then the item bytes in
order — and when 255 items have been written, one further `write` call
fails with `TooManyItems` before running its item writer. -/
theorem C3_counted_writer_u8 (cw : ClassWriter) (items : List (List Nat))
    (hpe : cw.pool_end ≤ cw.buf.length) (hne : ∀ it ∈ items, it ≠ [])
    (hlen : items.length ≤ 255) :
    (CountedWriterU8.new cw).writeAll items =
      .ok (CountedWriterU8.mk (cw.buf.length - cw.pool_end)
        (some (ClassWriter.mk (cw.buf ++ items.length :: items.flatten)
          cw.pool_end))
        items.length) ∧
    (∀ extra : List Nat,
      (CountedWriterU8.mk (cw.buf.length - cw.pool_end)
        (some (ClassWriter.mk (cw.buf ++ 255 :: items.flatten) cw.pool_end))
        255).write extra = .error (.err ⟨.TooManyItems, .None⟩)) := by
  constructor
  · have h := countedWriter_u8_writeAll items cw.buf [] cw.pool_end 0 hpe hne
      (by omega)
    rw [show (0 : Nat) + items.length = items.length by omega] at h
    rw [show ([] : List Nat) ++ items.flatten = items.flatten by simp] at h
    exact h
  · intro extra
    rfl

/-- C3 witness: one single-byte item on a fresh class writer — the write
succeeds and the placeholder holds 1 — and the saturated counter rejects
a 256th item with `TooManyItems`. -/
theorem C3_counted_writer_u8_witness :
    (CountedWriterU8.new ⟨[], 0⟩).writeAll [[9]] =
      .ok (CountedWriterU8.mk 0
        (some (ClassWriter.mk ([] ++ 1 :: [9]) 0)) 1) ∧
    (∀ extra : List Nat,
      (CountedWriterU8.mk 0 (some (ClassWriter.mk ([] ++ 255 :: [9]) 0))
        255).write extra = .error (.err ⟨.TooManyItems, .None⟩)) :=
  C3_counted_writer_u8 ⟨[], 0⟩ [[9]] (by decide) (by decide) (by decide)

end Noak
